import Mathlib

/-!
Verification development for the `fast-node-rest` package (`src/index.js`).

The development shallowly embeds the two algorithmic cores of the package:
the route-tree compiler (`parseRoutes` / `addRoute`) and the authentication
cascade (`auth`, `authUserOnly`, `authServiceOnly`), together with the
envelope formatter (`sendSuccess` / `sendError`), the dispatcher wrapper
registered by `addRoute`, the process-wide `errorHandler`, and the token
codec (`issueAccessToken`, `issueRefreshToken`, `issueServiceToken`,
`verifyToken`).  JavaScript strings are Lean `String`s, JavaScript
truthiness is made explicit, absent object properties are `Option.none`,
and functions that `throw` return `Except String`.
-/

namespace FastNodeRest

/-! ## String utilities

`addRoute` and `parseRoutes` normalise paths with
`.replace(/\/+/g, '/')`: every maximal run of consecutive `'/'`
characters is replaced by a single `'/'`.  `collapseCh` implements the
replacement on character lists, threading a flag recording whether the
previously emitted character was a `'/'`.
-/

/-- One pass of `.replace(/\/+/g, '/')`: the `Bool` records whether the
character just consumed was a slash (in which case further slashes are
dropped). -/
def collapseCh : Bool → List Char → List Char
  | _, [] => []
  | afterSlash, c :: rest =>
    if c = '/' then
      if afterSlash then collapseCh true rest
      else '/' :: collapseCh true rest
    else c :: collapseCh false rest

/-- JavaScript `s.replace(/\/+/g, '/')`. -/
def collapse (s : String) : String := ⟨collapseCh false s.data⟩

/-- Whether the last character of `b ++ s` (with `b` recording the state
before `s`) is a slash; the state threaded by `collapseCh`. -/
def endSlash : Bool → List Char → Bool
  | b, [] => b
  | _, c :: rest => endSlash (c = '/') rest

/-- JavaScript `String.prototype.toLowerCase` restricted to ASCII, which
is all the compiler ever lower-cases (HTTP method names). -/
def lowerStr (s : String) : String := ⟨s.data.map Char.toLower⟩

/-- JavaScript `s.split(sep)` for a one-character separator: splits at
every occurrence, keeping empty fragments (so `"a  b".split(' ')` is
`["a", "", "b"]` and `"".split(' ')` is `[""]`). -/
def splitCh (sep : Char) : List Char → List (List Char)
  | [] => [[]]
  | c :: rest =>
    match splitCh sep rest with
    | [] => [[]]
    | g :: gs => if c = sep then [] :: g :: gs else (c :: g) :: gs

/-- JavaScript `s.split(sep)` on Lean strings. -/
def jsSplit (sep : Char) (s : String) : List String :=
  (splitCh sep s.data).map (fun cs => ⟨cs⟩)

/-- `pat` is a prefix of `cs` (JavaScript `s.startsWith(pat)`). -/
def startsWithCh : List Char → List Char → Bool
  | [], _ => true
  | _ :: _, [] => false
  | a :: as, b :: bs => a = b && startsWithCh as bs

/-! ## Route declaration values

A JavaScript value in route-declaration position: a plain object (with
ordered, distinct keys — `JObj`), an array of middleware functions, a
string, a function (identified by an opaque id), or `null`.  The mutual
inductive keeps all recursion structural.
-/

mutual
inductive JVal where
  | vObj (o : JObj)
  | vArr (fids : List Nat)
  | vStr (s : String)
  | vFn (fid : Nat)
  | vNull
deriving Repr

inductive JObj where
  | nil
  | cons (k : String) (v : JVal) (rest : JObj)
deriving Repr
end

/-- JavaScript `key in obj` (own enumerable string keys). -/
def JObj.hasKey : JObj → String → Bool
  | .nil, _ => false
  | .cons k _ rest, key => k == key || rest.hasKey key

/-- JavaScript property read `obj[key]`; `none` when the property is
absent. -/
def JObj.lookup : JObj → String → Option JVal
  | .nil, _ => none
  | .cons k v rest, key => if k == key then some v else rest.lookup key

/-! ## Route compilation (`addRoute`, `parseRoutes`) -/

/-- One registration produced by `addRoute`: the Express call
`this.app[normalizedMethod](fullPath, ...middlewares, wrapper)`. -/
structure Binding where
  method : String
  path : String
  handlerId : Nat
  middlewares : JVal
deriving Repr

/-- `const validMethods = ['get', 'post', 'put', 'delete', 'patch']`. -/
def validMethods : List String := ["get", "post", "put", "delete", "patch"]

/-- `addRoute(path, config)` from `src/index.js`:
destructures `{ method = 'post', handler, middlewares = [] }`, throws
when `handler` is missing or not a function, throws when the lower-cased
method is not recognised (a non-string `method` throws a `TypeError` at
`method.toLowerCase()`), and otherwise registers the binding at
`(prefix + path).replace(/\/+/g, '/')`. -/
def addRoute (pfx : String) (path : String) (config : JObj) : Except String Binding :=
  let methodVal := (config.lookup "method").getD (.vStr "post")
  let middlewaresVal := (config.lookup "middlewares").getD (.vArr [])
  match config.lookup "handler" with
  | some (.vFn fid) =>
    match methodVal with
    | .vStr m =>
      let normalizedMethod := lowerStr m
      if validMethods.contains normalizedMethod then
        .ok { method := normalizedMethod
              path := collapse (pfx ++ path)
              handlerId := fid
              middlewares := middlewaresVal }
      else .error ("Invalid method: " ++ m)
    | _ => .error "TypeError: method.toLowerCase is not a function"
  | _ => .error ("Handler must be a function for route: " ++ path)

/-- `parseRoutes(routes, basePath)` from `src/index.js`, iterating
`Object.entries`.  For each `(key, route)`: form
`newPath = (basePath + '/' + key).replace(/\/+/g, '/')`; throw when
`route` is falsy or not of `typeof 'object'` (strings, functions and
`null` all fail; arrays pass); treat `route` as a leaf exactly when it
has a `handler` key; otherwise recurse.  Recursing into an array of
middleware functions visits its index entries: the first element (a
function) immediately fails the `typeof 'object'` test at path
`newPath + '/0'`, while an empty array contributes nothing. -/
def parseEntries (pfx : String) : String → JObj → Except String (List Binding)
  | _, .nil => .ok []
  | basePath, .cons key route rest =>
    let newPath := collapse (basePath ++ "/" ++ key)
    match route with
    | .vObj entries =>
      if entries.hasKey "handler" then
        match addRoute pfx newPath entries with
        | .ok b =>
          match parseEntries pfx basePath rest with
          | .ok bs => .ok (b :: bs)
          | .error e => .error e
        | .error e => .error e
      else
        match parseEntries pfx newPath entries with
        | .ok bs1 =>
          match parseEntries pfx basePath rest with
          | .ok bs2 => .ok (bs1 ++ bs2)
          | .error e => .error e
        | .error e => .error e
    | .vArr [] => parseEntries pfx basePath rest
    | .vArr (_ :: _) =>
      .error ("Invalid route configuration at path: " ++ collapse (newPath ++ "/" ++ "0"))
    | _ => .error ("Invalid route configuration at path: " ++ newPath)

/-- Top-level compilation: `this.parseRoutes(this.config.routes)` with
the default `basePath = ''`. -/
def parseRoutes (pfx : String) (routes : JObj) : Except String (List Binding) :=
  parseEntries pfx "" routes

/-! ## The leaves of a route tree, and well-formedness -/

mutual
/-- Size measure used for induction over route trees. -/
def JVal.vsize : JVal → Nat
  | .vObj o => 1 + o.osize
  | _ => 1

def JObj.osize : JObj → Nat
  | .nil => 0
  | .cons _ v rest => 1 + v.vsize + rest.osize
end

/-- The leaves of a route tree, each with the list of ancestor keys
leading to it.  A node is a leaf exactly when it carries a `handler`
key. -/
def JObj.leaves : JObj → List (List String × JObj)
  | .nil => []
  | .cons k (.vObj es) rest =>
    if es.hasKey "handler" then ([k], es) :: rest.leaves
    else (es.leaves.map (fun p => (k :: p.1, p.2))) ++ rest.leaves
  | .cons _ _ rest => rest.leaves

/-- A leaf configuration is well formed when its `handler` is a function
and its `method`, if declared, is a string that lower-cases into the
recognised set. -/
def isWFLeaf (es : JObj) : Bool :=
  (match es.lookup "handler" with
   | some (.vFn _) => true
   | _ => false) &&
  (match es.lookup "method" with
   | none => true
   | some (.vStr m) => validMethods.contains (lowerStr m)
   | some _ => false)

/-- A route tree is well formed when every node is a plain object with
distinct keys and every leaf is well formed. -/
def JObj.isWF : JObj → Bool
  | .nil => true
  | .cons k (.vObj es) rest =>
    !(rest.hasKey k) &&
    (if es.hasKey "handler" then isWFLeaf es else es.isWF) &&
    rest.isWF
  | .cons _ _ _ => false

/-- The method a leaf declares, lower-cased, defaulting to `"post"`. -/
def declaredMethod (es : JObj) : String :=
  match es.lookup "method" with
  | some (.vStr m) => lowerStr m
  | _ => "post"

/-- The function id of a leaf's `handler` (0 when it is not a function;
well-formed leaves always hit the first branch). -/
def handlerIdOf (es : JObj) : Nat :=
  match es.lookup "handler" with
  | some (.vFn fid) => fid
  | _ => 0

/-- The leaf's `middlewares` value, defaulting to the empty array. -/
def middlewaresOf (es : JObj) : JVal :=
  (es.lookup "middlewares").getD (.vArr [])

/-- `"/" ++ k₁ ++ "/" ++ k₂ ++ ⋯`: the ancestor keys of a leaf joined by
the path separator. -/
def joinKeys : List String → String
  | [] => ""
  | k :: ks => "/" ++ k ++ joinKeys ks

/-- The path the traversal accumulates: starting from `basePath`, each
step appends `"/" ++ key` and collapses repeated separators, exactly as
`parseRoutes` computes `newPath`. -/
def pathFrom : String → List String → String
  | basePath, [] => basePath
  | basePath, k :: ks => pathFrom (collapse (basePath ++ "/" ++ k)) ks

/-- The binding `addRoute` registers for the leaf `p.2` reached from
`basePath` through the keys `p.1`. -/
def leafBinding (pfx basePath : String) (p : List String × JObj) : Binding :=
  { method := declaredMethod p.2
    path := collapse (pfx ++ pathFrom basePath p.1)
    handlerId := handlerIdOf p.2
    middlewares := middlewaresOf p.2 }

/-! ## Algebra of separator collapsing -/

theorem endSlash_append (b : Bool) (s t : List Char) :
    endSlash b (s ++ t) = endSlash (endSlash b s) t := by
  induction s generalizing b with
  | nil => rfl
  | cons c rest ih => simp [endSlash, ih]

theorem collapseCh_append (b : Bool) (s t : List Char) :
    collapseCh b (s ++ t) = collapseCh b s ++ collapseCh (endSlash b s) t := by
  induction s generalizing b with
  | nil => simp [collapseCh, endSlash]
  | cons c rest ih =>
    by_cases hc : c = '/'
    · subst hc
      cases b <;> simp [collapseCh, endSlash, ih]
    · simp [collapseCh, endSlash, hc, ih]

theorem collapseCh_collapseCh (b b' : Bool) (t : List Char) :
    collapseCh b (collapseCh b' t) = collapseCh (b || b') t := by
  induction t generalizing b b' with
  | nil => simp [collapseCh]
  | cons c rest ih =>
    by_cases hc : c = '/'
    · subst hc
      cases b' <;> cases b <;> simp [collapseCh, ih]
    · simp [collapseCh, hc, ih]

theorem endSlash_collapseCh (b : Bool) (s : List Char) :
    endSlash b (collapseCh b s) = endSlash b s := by
  induction s generalizing b with
  | nil => rfl
  | cons c rest ih =>
    by_cases hc : c = '/'
    · subst hc
      cases b <;> simp [collapseCh, endSlash, ih]
    · simp [collapseCh, endSlash, hc, ih]

/-- Collapsing an already collapsed left part again is the same as
collapsing the raw concatenation once. -/
theorem collapse_collapse_append (s t : String) :
    collapse (collapse s ++ t) = collapse (s ++ t) := by
  apply String.ext
  show collapseCh false ((collapse s ++ t).data) = collapseCh false ((s ++ t).data)
  rw [String.data_append, String.data_append]
  show collapseCh false (collapseCh false s.data ++ t.data) = _
  rw [collapseCh_append, collapseCh_append, collapseCh_collapseCh,
    endSlash_collapseCh]
  simp

theorem collapse_append_collapse (s t : String) :
    collapse (s ++ collapse t) = collapse (s ++ t) := by
  apply String.ext
  show collapseCh false ((s ++ collapse t).data) = collapseCh false ((s ++ t).data)
  rw [String.data_append, String.data_append]
  show collapseCh false (s.data ++ collapseCh false t.data) = _
  rw [collapseCh_append, collapseCh_append, collapseCh_collapseCh]
  simp

theorem pathFrom_collapse (ks : List String) :
    ∀ s : String, pathFrom (collapse s) ks = collapse (s ++ joinKeys ks) := by
  induction ks with
  | nil => intro s; simp [pathFrom, joinKeys, String.append_empty]
  | cons k ks ih =>
    intro s
    show pathFrom (collapse (collapse s ++ "/" ++ k)) ks = _
    rw [String.append_assoc, collapse_collapse_append, ← String.append_assoc, ih]
    rw [joinKeys, ← String.append_assoc, ← String.append_assoc]

/-! ## Induction over route trees

`JObj` and `JVal` are mutually inductive, so the `induction` tactic
cannot be used on them directly; `JObj.deepIndOn` recovers the induction
principle the traversal needs, by strong induction on the size
measure. -/

theorem JObj.deepIndOn {motive : JObj → Prop} (base : motive .nil)
    (step : ∀ k v rest, (∀ es', v = .vObj es' → motive es') → motive rest →
      motive (.cons k v rest)) :
    ∀ es, motive es := by
  suffices H : ∀ n es, JObj.osize es ≤ n → motive es from fun es => H es.osize es le_rfl
  intro n
  induction n with
  | zero =>
    intro es hsz
    cases es with
    | nil => exact base
    | cons k v rest => exfalso; rw [JObj.osize] at hsz; omega
  | succ n ih =>
    intro es hsz
    cases es with
    | nil => exact base
    | cons k v rest =>
      rw [JObj.osize] at hsz
      refine step k v rest (fun es' hv => ih es' ?_) (ih rest ?_)
      · subst hv; rw [JVal.vsize] at hsz; omega
      · have : 1 ≤ JVal.vsize v := by cases v <;> simp [JVal.vsize]
        omega

/-! ## Correctness of the route-tree compiler -/

theorem lookup_some_hasKey (es : JObj) (key : String) (v : JVal)
    (h : es.lookup key = some v) : es.hasKey key = true := by
  induction es using JObj.deepIndOn with
  | base => rw [JObj.lookup] at h; cases h
  | step k v' rest _ ihrest =>
    rw [JObj.lookup] at h
    rw [JObj.hasKey]
    by_cases hk : (k == key) = true
    · simp [hk]
    · simp only [Bool.not_eq_true] at hk
      rw [hk] at h ⊢
      simp only [if_false, Bool.false_or]
      exact ihrest h

theorem contains_lower_post : validMethods.contains (lowerStr "post") = true := rfl

/-- On a well-formed leaf, `addRoute` registers exactly the binding
described by `declaredMethod` / `handlerIdOf` / `middlewaresOf`. -/
theorem addRoute_wf (pfx path : String) (es : JObj) (h : isWFLeaf es = true) :
    addRoute pfx path es = .ok
      { method := declaredMethod es
        path := collapse (pfx ++ path)
        handlerId := handlerIdOf es
        middlewares := middlewaresOf es } := by
  unfold isWFLeaf at h
  rw [Bool.and_eq_true] at h
  obtain ⟨h1, h2⟩ := h
  cases hh : es.lookup "handler" with
  | none => rw [hh] at h1; cases h1
  | some hv =>
    rw [hh] at h1
    cases hv with
    | vObj o => cases h1
    | vArr f => cases h1
    | vStr s => cases h1
    | vNull => cases h1
    | vFn fid =>
    cases hm : es.lookup "method" with
    | none =>
      simp only [addRoute, declaredMethod, handlerIdOf, middlewaresOf, hh, hm,
        Option.getD_none, contains_lower_post, if_true]
      rfl
    | some mv =>
      rw [hm] at h2
      cases mv with
      | vObj o => cases h2
      | vArr f => cases h2
      | vFn f => cases h2
      | vNull => cases h2
      | vStr m =>
        have h2' : validMethods.contains (lowerStr m) = true := h2
        simp only [addRoute, declaredMethod, handlerIdOf, middlewaresOf, hh, hm,
          Option.getD_some, h2', if_true]

/-- On a well-formed tree, the traversal succeeds and produces exactly
the binding of `addRoute` for each leaf, in traversal order. -/
theorem parseEntries_wf (pfx : String) (es : JObj) :
    ∀ basePath, es.isWF = true →
      parseEntries pfx basePath es = .ok (es.leaves.map (leafBinding pfx basePath)) := by
  induction es using JObj.deepIndOn with
  | base => intro basePath _; rfl
  | step k v rest ihv ihrest =>
    intro basePath hwf
    cases v with
    | vObj es' =>
      simp only [JObj.isWF, Bool.and_eq_true] at hwf
      obtain ⟨⟨_, hbody⟩, hrest⟩ := hwf
      by_cases hh : es'.hasKey "handler" = true
      · rw [if_pos hh] at hbody
        simp only [parseEntries, hh, if_true]
        rw [addRoute_wf pfx _ es' hbody, ihrest basePath hrest]
        simp only [JObj.leaves, hh, if_true, List.map_cons]
        rfl
      · rw [if_neg hh] at hbody
        simp only [Bool.not_eq_true] at hh
        simp only [parseEntries, hh, Bool.false_eq_true, if_false]
        rw [ihv es' rfl (collapse (basePath ++ "/" ++ k)) hbody, ihrest basePath hrest]
        simp only [JObj.leaves, hh, Bool.false_eq_true, if_false, List.map_append,
          List.map_map]
        rfl
    | vArr fids => simp [JObj.isWF] at hwf
    | vStr s => simp [JObj.isWF] at hwf
    | vFn fid => simp [JObj.isWF] at hwf
    | vNull => simp [JObj.isWF] at hwf

theorem pathFrom_empty (ks : List String) : pathFrom "" ks = collapse (joinKeys ks) := by
  have h := pathFrom_collapse ks ""
  rw [String.empty_append] at h
  exact h

/-- A successful `addRoute` implies the leaf was well formed. -/
theorem addRoute_ok_isWFLeaf (pfx path : String) (es : JObj) (b : Binding)
    (h : addRoute pfx path es = .ok b) : isWFLeaf es = true := by
  unfold addRoute at h
  cases hh : es.lookup "handler" with
  | none => rw [hh] at h; cases h
  | some hv =>
    rw [hh] at h
    cases hv with
    | vObj o => cases h
    | vArr f => cases h
    | vStr s => cases h
    | vNull => cases h
    | vFn fid =>
      cases hm : es.lookup "method" with
      | none => simp [isWFLeaf, hh, hm]
      | some mv =>
        rw [hm] at h
        cases mv with
        | vObj o => cases h
        | vArr f => cases h
        | vFn f => cases h
        | vNull => cases h
        | vStr m =>
          have h' : (if validMethods.contains (lowerStr m) = true then
                Except.ok ({ method := lowerStr m
                             path := collapse (pfx ++ path)
                             handlerId := fid
                             middlewares := (es.lookup "middlewares").getD (.vArr []) } : Binding)
              else Except.error ("Invalid method: " ++ m)) = Except.ok b := h
          by_cases hc : validMethods.contains (lowerStr m) = true
          · rw [isWFLeaf, hh, hm]
            show (true && validMethods.contains (lowerStr m)) = true
            rw [Bool.true_and]
            exact hc
          · rw [if_neg hc] at h'; cases h'

/-- A successful traversal implies every listed leaf was well formed. -/
theorem parseEntries_ok_leaf_wf (pfx : String) (es : JObj) :
    ∀ basePath bs, parseEntries pfx basePath es = .ok bs →
      ∀ p ∈ es.leaves, isWFLeaf p.2 = true := by
  induction es using JObj.deepIndOn with
  | base =>
    intro basePath bs _ p hp
    simp [JObj.leaves] at hp
  | step k v rest ihv ihrest =>
    intro basePath bs hok p hp
    cases v with
    | vObj es' =>
      by_cases hh : es'.hasKey "handler" = true
      · simp only [parseEntries, hh, if_true] at hok
        cases har : addRoute pfx (collapse (basePath ++ "/" ++ k)) es' with
        | error e => rw [har] at hok; cases hok
        | ok b =>
          rw [har] at hok
          cases hrest : parseEntries pfx basePath rest with
          | error e => rw [hrest] at hok; cases hok
          | ok bs' =>
            simp only [JObj.leaves, hh, if_true, List.mem_cons] at hp
            rcases hp with rfl | hp
            · exact addRoute_ok_isWFLeaf _ _ _ _ har
            · exact ihrest basePath bs' hrest p hp
      · simp only [Bool.not_eq_true] at hh
        simp only [parseEntries, hh, Bool.false_eq_true, if_false] at hok
        cases hinner : parseEntries pfx (collapse (basePath ++ "/" ++ k)) es' with
        | error e => rw [hinner] at hok; cases hok
        | ok bs1 =>
          rw [hinner] at hok
          cases hrest : parseEntries pfx basePath rest with
          | error e => rw [hrest] at hok; cases hok
          | ok bs2 =>
            simp only [JObj.leaves, hh, Bool.false_eq_true, if_false, List.mem_append,
              List.mem_map] at hp
            rcases hp with ⟨q, hq, rfl⟩ | hp
            · exact ihv es' rfl _ _ hinner q hq
            · exact ihrest basePath bs2 hrest p hp
    | vArr fids =>
      cases fids with
      | nil =>
        simp only [parseEntries] at hok
        simp only [JObj.leaves] at hp
        exact ihrest basePath bs hok p hp
      | cons f fs => simp only [parseEntries] at hok; cases hok
    | vStr s => simp only [parseEntries] at hok; cases hok
    | vFn f => simp only [parseEntries] at hok; cases hok
    | vNull => simp only [parseEntries] at hok; cases hok

/-! ## Claim C1 -/

/-- C1: for every well-formed nested route tree and every configured
prefix, compilation (`parseRoutes` + `addRoute`) produces exactly one
binding per leaf node — in traversal order — whose registration path is
the concatenation of the prefix and all ancestor keys joined with `'/'`
with every run of consecutive `'/'` collapsed to one, and whose HTTP
method is the leaf's declared method lower-cased, defaulting to `"post"`
when the leaf declares none. -/
theorem c1_compile_one_binding_per_leaf (pfx : String) (routes : JObj)
    (h : routes.isWF = true) :
    parseRoutes pfx routes = .ok (routes.leaves.map (fun p =>
      { method := declaredMethod p.2
        path := collapse (pfx ++ joinKeys p.1)
        handlerId := handlerIdOf p.2
        middlewares := middlewaresOf p.2 })) := by
  rw [parseRoutes, parseEntries_wf pfx routes "" h]
  have hfun : leafBinding pfx "" = (fun p : List String × JObj =>
      ({ method := declaredMethod p.2
         path := collapse (pfx ++ joinKeys p.1)
         handlerId := handlerIdOf p.2
         middlewares := middlewaresOf p.2 } : Binding)) := by
    funext p
    unfold leafBinding
    rw [pathFrom_empty, collapse_append_collapse]
  rw [hfun]

/-- The route tree of the spec's scenario:
`{health: {method:'get', handler: h1}, api: {v1: {posts: {method:'GET', handler: h2}}}}`. -/
def demoRoutes : JObj :=
  .cons "health" (.vObj (.cons "method" (.vStr "get") (.cons "handler" (.vFn 1) .nil)))
    (.cons "api" (.vObj (.cons "v1" (.vObj (.cons "posts"
      (.vObj (.cons "method" (.vStr "GET") (.cons "handler" (.vFn 2) .nil))) .nil)) .nil))
      .nil)

theorem c1_witness :
    parseRoutes "" demoRoutes = .ok
      [{ method := "get", path := "/health", handlerId := 1, middlewares := .vArr [] },
       { method := "get", path := "/api/v1/posts", handlerId := 2, middlewares := .vArr [] }] := by
  rw [c1_compile_one_binding_per_leaf "" demoRoutes (by decide)]
  rfl

/-! ## Claim C7 -/

/-- C7: a route tree containing a leaf whose `method` lower-cases
outside {get, post, put, delete, patch} (or is not even a string), or
whose `handler` is not a function, never compiles to a binding list:
compilation throws. -/
theorem c7_bad_leaf_fails (pfx basePath : String) (es : JObj)
    (h : ∃ p ∈ es.leaves, isWFLeaf p.2 = false) :
    ∃ msg, parseEntries pfx basePath es = .error msg := by
  obtain ⟨p, hp, hbad⟩ := h
  cases hres : parseEntries pfx basePath es with
  | ok bs =>
    have := parseEntries_ok_leaf_wf pfx es basePath bs hres p hp
    rw [this] at hbad; cases hbad
  | error e => exact ⟨e, rfl⟩

/-- A tree whose single leaf declares the unrecognised method `brew`. -/
def badMethodTree : JObj :=
  .cons "bad" (.vObj (.cons "method" (.vStr "brew") (.cons "handler" (.vFn 1) .nil))) .nil

theorem c7_witness :
    ∃ msg, parseEntries "" "" badMethodTree = .error msg :=
  c7_bad_leaf_fails "" "" badMethodTree
    ⟨(["bad"], .cons "method" (.vStr "brew") (.cons "handler" (.vFn 1) .nil)),
      List.mem_singleton.mpr rfl, rfl⟩

/-! ## Claim C10 -/

/-- C10: the presence of a `handler` key — whatever its value — makes
the traversal treat the node as a leaf and hand it to `addRoute`
instead of recursing; in particular a `handler` key mapped to a nested
group object never produces bindings for the subtree, but fails with
`Handler must be a function`. -/
theorem c10_handler_key_never_group (pfx basePath k : String) (cfg grp rest : JObj)
    (h : cfg.lookup "handler" = some (.vObj grp)) :
    parseEntries pfx basePath (.cons k (.vObj cfg) rest) =
      .error ("Handler must be a function for route: " ++ collapse (basePath ++ "/" ++ k)) := by
  have hk := lookup_some_hasKey cfg "handler" _ h
  simp only [parseEntries, hk, if_true, addRoute, h]

/-- A subtree a user might mistakenly try to register under the
path-segment key `handler`. -/
def groupUnderHandler : JObj :=
  .cons "posts" (.vObj (.cons "method" (.vStr "get") (.cons "handler" (.vFn 5) .nil))) .nil

theorem c10_witness :
    parseEntries "" "" (.cons "api" (.vObj (.cons "handler" (.vObj groupUnderHandler) .nil)) .nil) =
      .error "Handler must be a function for route: /api" := by
  rw [c10_handler_key_never_group "" "" "api" (.cons "handler" (.vObj groupUnderHandler) .nil)
    groupUnderHandler .nil rfl]
  rfl

/-! ## Token claims, configuration and JavaScript truthiness -/

/-- The decoded payload of a token: the claims the code reads
(`user_id`, `service`, `type` — named `tokType` here since `type` is a
Lean keyword — and `iat`). An absent claim is `none`. -/
structure TokenClaims where
  user_id : Option String
  service : Option String
  tokType : Option String
  iat : Nat
deriving Repr, DecidableEq

/-- JavaScript truthiness of a possibly-absent string value: `undefined`
(absent) and the empty string are falsy. -/
def truthyS : Option String → Bool
  | none => false
  | some s => !(s == "")

/-- The JWT part of the constructor's configuration.  The expiry spans
are in seconds (the string forms `'15m'` / `'7d'` are interpreted by the
external JWT library). -/
structure Config where
  JWT_SECRET : Option String
  JWT_REFRESH : Option String
  JWT_SERVICE : Option String
  JWT_EXPIRATION : Nat
  JWT_REFRESH_EXPIRATION : Nat
deriving Repr

/-! ## The symbolic JWT primitive -/

/-- Modelled from the spec: a token produced by the external JWT
library (`jsonwebtoken`), which is out of scope of the repository and is
consumed as `sign(payload, secret, opts) -> token` and
`verify(token, secret) -> payload | fails`.  A signed token carries its
payload faithfully, verifies only under the secret that signed it, and
fails verification once expired (spec section 1, and the section 3
invariant that signature plus the `type` claim discriminate kinds). -/
structure SignedToken where
  payload : TokenClaims
  secret : String
  exp : Nat
deriving Repr, DecidableEq

/-- Modelled from the spec: `jwt.sign(payload, secret, { expiresIn })`
at time `now`. -/
def jwtSign (payload : TokenClaims) (secret : String) (now expSeconds : Nat) : SignedToken :=
  { payload := payload, secret := secret, exp := now + expSeconds }

/-- Modelled from the spec: `jwt.verify(token, secret)` evaluated at
time `now`: the payload when the secret matches and the token has not
expired, failure otherwise. -/
def jwtVerify (tok : SignedToken) (secret : String) (now : Nat) : Option TokenClaims :=
  if tok.secret == secret && decide (now < tok.exp) then some tok.payload else none

/-! ## Token codec -/

/-- `verifyToken(token, secret)` from `src/index.js` over symbolic
tokens: null when the token or the secret is falsy, otherwise
`jwt.verify` with every verification failure (expiry, bad signature)
swallowed into null — the function never throws outward. -/
def verifyToken : Option SignedToken → Option String → Nat → Option TokenClaims
  | some t, some s, now => if s == "" then none else jwtVerify t s now
  | _, _, _ => none

/-- `issueAccessToken(user_id)` from `src/index.js`, with
`additionalPayload` left at its default `{}`: throws when `JWT_SECRET`
is unset (falsy) or `user_id` is falsy; otherwise signs
`{user_id, type: 'access', iat: now}` with the access secret and the
access expiry. -/
def issueAccessToken (cfg : Config) (user_id : String) (now : Nat) : Except String SignedToken :=
  if !(truthyS cfg.JWT_SECRET) then .error "JWT_SECRET not configured"
  else if user_id == "" then .error "user_id is required for token generation"
  else .ok (jwtSign
    { user_id := some user_id, service := none, tokType := some "access", iat := now }
    (cfg.JWT_SECRET.getD "") now cfg.JWT_EXPIRATION)

/-- `issueRefreshToken(user_id)` from `src/index.js`, analogous. -/
def issueRefreshToken (cfg : Config) (user_id : String) (now : Nat) : Except String SignedToken :=
  if !(truthyS cfg.JWT_REFRESH) then .error "JWT_REFRESH not configured"
  else if user_id == "" then .error "user_id is required for refresh token generation"
  else .ok (jwtSign
    { user_id := some user_id, service := none, tokType := some "refresh", iat := now }
    (cfg.JWT_REFRESH.getD "") now cfg.JWT_REFRESH_EXPIRATION)

/-- `issueServiceToken(serviceName)` from `src/index.js`: throws a
configuration error when `JWT_SERVICE` is unset; throws when
`serviceName` is falsy; otherwise signs
`{service, type: 'service', iat: now}` with the service secret and the
access-length expiry. -/
def issueServiceToken (cfg : Config) (serviceName : String) (now : Nat) : Except String SignedToken :=
  if !(truthyS cfg.JWT_SERVICE) then .error "JWT_SERVICE secret not configured"
  else if serviceName == "" then .error "serviceName is required for service token generation"
  else .ok (jwtSign
    { user_id := none, service := some serviceName, tokType := some "service", iat := now }
    (cfg.JWT_SERVICE.getD "") now cfg.JWT_EXPIRATION)

/-! ## The authentication cascade

The middleware claims quantify over the behaviour of the external
`jwt.verify` primitive, abstracted as an oracle
`V : String → String → Option TokenClaims` (token, secret); the
signing done during renewal is likewise abstracted as
`S : String → String` (subject id to fresh token).  `verifyTokenStr`
is the same `verifyToken` wrapper from `src/index.js`, this time over
raw string tokens with `jwt.verify` left abstract. -/

/-- `verifyToken(token, secret)` with `jwt.verify` abstracted as `V`:
null when the token or the secret is falsy, otherwise whatever the
primitive yields (`V` returning `none` covers every caught failure). -/
def verifyTokenStr (V : String → String → Option TokenClaims)
    (token secret : Option String) : Option TokenClaims :=
  match token, secret with
  | some t, some s => if t == "" || s == "" then none else V t s
  | _, _ => none

/-- An inbound request as the middleware sees it: the `authorization`
header and the `refreshToken` cookie (parsed by `cookie-parser`). -/
structure Request where
  authorization : Option String
  refreshTokenCookie : Option String
deriving Repr

/-- What a middleware run does to the request: reject with a status and
message (possibly clearing the refresh cookie), attach a service
principal, or attach a user principal (possibly renewed, with the fresh
access token exposed through the `X-New-Access-Token` header). -/
inductive AuthOutcome where
  | reject (status : Nat) (message : String) (clearedRefreshCookie : Bool)
  | okService (name : String) (payload : TokenClaims)
  | okUser (user_id : String) (payload : TokenClaims) (tokenRefreshed : Bool)
      (newAccessToken : Option String)
deriving Repr, DecidableEq

/-- `authHeader?.startsWith('Bearer ')`. -/
def hasBearer : Option String → Bool
  | some s => startsWithCh "Bearer ".data s.data
  | none => false

/-- `authHeader.split(' ')[1]` (meaningful once the header exists). -/
def bearerToken (h : Option String) : Option String :=
  (jsSplit ' ' (h.getD "")).get? 1

/-- `serviceDecoded?.service && serviceDecoded?.type === 'service'`. -/
def serviceClaimOk (d : TokenClaims) : Bool :=
  truthyS d.service && (d.tokType == some "service")

/-- `userDecoded?.user_id && userDecoded?.type === 'access'`. -/
def userAccessClaimOk (d : TokenClaims) : Bool :=
  truthyS d.user_id && (d.tokType == some "access")

/-- `refreshDecoded?.user_id && refreshDecoded?.type === 'refresh'`. -/
def refreshClaimOk (d : TokenClaims) : Bool :=
  truthyS d.user_id && (d.tokType == some "refresh")

/-- Verification of a bearer token against the service secret together
with the claim-shape test (`auth` step 1 body, `authServiceOnly`
body). -/
def serviceVerify (cfg : Config) (V : String → String → Option TokenClaims)
    (tok : Option String) : Option TokenClaims :=
  match verifyTokenStr V tok cfg.JWT_SERVICE with
  | some d => if serviceClaimOk d then some d else none
  | none => none

/-- `auth` step 1: the service path runs only when a service secret is
configured. -/
def serviceCheck (cfg : Config) (V : String → String → Option TokenClaims)
    (tok : Option String) : Option TokenClaims :=
  if truthyS cfg.JWT_SERVICE then serviceVerify cfg V tok else none

/-- `auth` step 2 (`authUserOnly` body): verification against the access
secret with the access claim-shape test. -/
def accessCheck (cfg : Config) (V : String → String → Option TokenClaims)
    (tok : Option String) : Option TokenClaims :=
  match verifyTokenStr V tok cfg.JWT_SECRET with
  | some d => if userAccessClaimOk d then some d else none
  | none => none

/-- `auth` step 4 verification part: the refresh cookie against the
refresh secret with the refresh claim-shape test. -/
def refreshCheck (cfg : Config) (V : String → String → Option TokenClaims)
    (tok : Option String) : Option TokenClaims :=
  match verifyTokenStr V tok cfg.JWT_REFRESH with
  | some d => if refreshClaimOk d then some d else none
  | none => none

/-- The combined `auth` middleware from `src/index.js`: bearer-header
guard, empty-token guard, service check, user access check, then the
refresh-renewal attempt.  The only reachable failure of
`issueAccessToken` inside the renewal `try` is an unset `JWT_SECRET`
(the subject id is truthy at that point), which the `catch` maps to a
500 rejection. -/
def auth (cfg : Config) (V : String → String → Option TokenClaims)
    (S : String → String) (req : Request) : AuthOutcome :=
  if !(hasBearer req.authorization) then
    .reject 401 "Missing or invalid Authorization header" false
  else
    let accessToken := bearerToken req.authorization
    if !(truthyS accessToken) then .reject 401 "Access token not provided" false
    else
      match serviceCheck cfg V accessToken with
      | some d => .okService (d.service.getD "") d
      | none =>
        match accessCheck cfg V accessToken with
        | some d => .okUser (d.user_id.getD "") d false none
        | none =>
          if !(truthyS req.refreshTokenCookie) then
            .reject 401 "Access token expired and no refresh token provided" false
          else
            match refreshCheck cfg V req.refreshTokenCookie with
            | none => .reject 401 "Invalid refresh token. Please log in again" true
            | some d =>
              if truthyS cfg.JWT_SECRET then
                .okUser (d.user_id.getD "") d true (some (S (d.user_id.getD "")))
              else .reject 500 "Failed to refresh access token" false

/-- The strict `authUserOnly` middleware from `src/index.js`: bearer
guard, then only the access-secret check; no renewal fallback. -/
def authUserOnly (cfg : Config) (V : String → String → Option TokenClaims)
    (req : Request) : AuthOutcome :=
  if !(hasBearer req.authorization) then .reject 401 "User token required" false
  else
    match accessCheck cfg V (bearerToken req.authorization) with
    | some d => .okUser (d.user_id.getD "") d false none
    | none => .reject 401 "Invalid or expired user token" false

/-- The strict `authServiceOnly` middleware from `src/index.js`: a 500
configuration rejection when no service secret is set comes *before*
the bearer-header guard; then only the service-secret check. -/
def authServiceOnly (cfg : Config) (V : String → String → Option TokenClaims)
    (req : Request) : AuthOutcome :=
  if !(truthyS cfg.JWT_SERVICE) then
    .reject 500 "Service authentication not configured" false
  else if !(hasBearer req.authorization) then .reject 401 "Service token required" false
  else
    match serviceVerify cfg V (bearerToken req.authorization) with
    | some d => .okService (d.service.getD "") d
    | none => .reject 403 "Invalid service token" false

/-- The HTTP status of a rejecting outcome. -/
def statusOf : AuthOutcome → Option Nat
  | .reject s _ _ => some s
  | _ => none

/-! ## The dispatcher wrapper and the envelope formatter -/

/-- The body `sendError` builds:
`{error: {message, ...(field && {field}), ...(extra && extra)}}`. -/
structure ErrorBody where
  message : String
  field : Option String
  extra : List (String × String)
deriving Repr, DecidableEq

/-- A failure value a handler throws or rejects with, as `sendError`
and `errorHandler` read it: optional `message`, `status`, `field` and
`extra` properties. -/
structure JsError where
  message : Option String
  status : Option Nat
  field : Option String
  extra : Option (List (String × String))
deriving Repr, DecidableEq

/-- JavaScript truthiness of the optional numeric `status` property. -/
def truthyN : Option Nat → Bool
  | none => false
  | some n => !(n == 0)

/-- `sendError`'s envelope body: `error.message || 'An error occurred'`,
`field` kept only when truthy, `extra` spread when present. -/
def sendErrorBody (e : JsError) : ErrorBody :=
  { message := match e.message with
      | some m => if m == "" then "An error occurred" else m
      | none => "An error occurred"
    field := match e.field with
      | some f => if f == "" then none else some f
      | none => none
    extra := e.extra.getD [] }

/-- The body of one emitted response: a success payload (the handler's
return value, `{}` when it returned nothing) or an error envelope. -/
inductive ResBody where
  | success (data : JVal)
  | failure (e : ErrorBody)
deriving Repr

/-- One response written to the wire. -/
structure SentResponse where
  status : Nat
  body : ResBody
deriving Repr

/-- `res.headersSent`: something has already been written. -/
def headersSent (st : List SentResponse) : Bool := !st.isEmpty

/-- `sendSuccess(res, data = {}, status = 200)`. -/
def sendSuccessRes (st : List SentResponse) (data : Option JVal) (status : Nat) :
    List SentResponse :=
  st ++ [{ status := status, body := .success (data.getD (.vObj .nil)) }]

/-- `sendError(res, error, status)` (the status always passed explicitly
on this path). -/
def sendErrorRes (st : List SentResponse) (e : JsError) (status : Nat) : List SentResponse :=
  st ++ [{ status := status, body := .failure (sendErrorBody e) }]

/-- What a handler invocation does: return a value (possibly none,
i.e. `undefined`) or throw/reject, while possibly writing to the
response itself. -/
inductive HandlerOutcome where
  | ret (v : Option JVal)
  | thrown (e : JsError)

/-- A request handler: reads and extends the response state. -/
def Handler := List SentResponse → HandlerOutcome × List SentResponse

/-- The process-wide `errorHandler` from `src/index.js`: passes the
error on to the external default handler when headers were already sent
(no response written by the core), otherwise sends
`err.status || 500`. -/
def errorHandler (st : List SentResponse) (e : JsError) : List SentResponse :=
  if headersSent st then st
  else sendErrorRes st e (if truthyN e.status then e.status.getD 500 else 500)

/-- The async wrapper `addRoute` registers per binding: await the
handler; on success auto-send the result unless headers were already
sent; on failure `next(error)`, which lands in `errorHandler`. -/
def dispatch (h : Handler) (st : List SentResponse) : List SentResponse :=
  match h st with
  | (.ret v, st') => if headersSent st' then st' else sendSuccessRes st' v 200
  | (.thrown e, st') => errorHandler st' e

/-! ## Helper lemmas about truthiness and the checks -/

theorem truthyS_some (o : Option String) (h : truthyS o = true) :
    ∃ s, o = some s ∧ (s == "") = false := by
  cases o with
  | none => cases h
  | some s =>
    refine ⟨s, rfl, ?_⟩
    simpa [truthyS] using h

theorem verifyTokenStr_some_truthy (V : String → String → Option TokenClaims)
    (tok sec : Option String) (d : TokenClaims)
    (h : verifyTokenStr V tok sec = some d) : truthyS tok = true := by
  cases tok with
  | none => cases sec <;> simp [verifyTokenStr] at h
  | some t =>
    cases sec with
    | none => simp [verifyTokenStr] at h
    | some s =>
      by_cases he : (t == "") = true
      · simp [verifyTokenStr, he] at h
      · simp [truthyS, he]

theorem refreshCheck_cookie_truthy (cfg : Config) (V : String → String → Option TokenClaims)
    (tok : Option String) (d : TokenClaims) (h : refreshCheck cfg V tok = some d) :
    truthyS tok = true := by
  rw [refreshCheck] at h
  cases hv : verifyTokenStr V tok cfg.JWT_REFRESH with
  | none => rw [hv] at h; cases h
  | some d' => exact verifyTokenStr_some_truthy V tok _ d' hv

/-! ## Claim C2 -/

/-- C2: a bearer token is tried as a service token before it is tried
as a user access token: whenever the token verifies under the
configured service secret with a truthy `service` claim and
`type == "service"`, the combined cascade attaches the service
principal and never a user principal — even when the same token would
also verify under the access secret (nothing constrains `V` on the
access secret). -/
theorem c2_service_tried_first (cfg : Config) (V : String → String → Option TokenClaims)
    (S : String → String) (req : Request) (d : TokenClaims)
    (hcfg : truthyS cfg.JWT_SERVICE = true)
    (hb : hasBearer req.authorization = true)
    (ht : truthyS (bearerToken req.authorization) = true)
    (hV : V ((bearerToken req.authorization).getD "") (cfg.JWT_SERVICE.getD "") = some d)
    (hclaim : serviceClaimOk d = true) :
    auth cfg V S req = .okService (d.service.getD "") d ∧
    (∀ u p r n, auth cfg V S req ≠ .okUser u p r n) := by
  obtain ⟨t, hteq, htne⟩ := truthyS_some _ ht
  obtain ⟨s, hseq, hsne⟩ := truthyS_some _ hcfg
  rw [hteq] at hV
  rw [hseq] at hV
  have hsc : serviceCheck cfg V (bearerToken req.authorization) = some d := by
    rw [serviceCheck, if_pos hcfg, serviceVerify, hteq, hseq]
    simp only [verifyTokenStr, htne, hsne, Bool.or_self, Bool.false_eq_true, if_false]
    simp only [Option.getD_some] at hV
    rw [hV]
    simp [hclaim]
  have hmain : auth cfg V S req = .okService (d.service.getD "") d := by
    rw [auth]
    rw [hb]
    simp only [Bool.not_true, Bool.false_eq_true, if_false]
    rw [if_neg (by rw [ht]; simp)]
    rw [hsc]
  refine ⟨hmain, fun u p r n => ?_⟩
  rw [hmain]
  intro hcontra
  cases hcontra

/-- A verifier making one token valid under both the service and the
access secret, exercising the misconfiguration scenario of C2. -/
def dualV : String → String → Option TokenClaims := fun t s =>
  if t == "tok" && s == "svc" then
    some { user_id := none, service := some "billing", tokType := some "service", iat := 0 }
  else if t == "tok" && s == "acc" then
    some { user_id := some "u1", service := none, tokType := some "access", iat := 0 }
  else none

/-- Fully configured server used by several concrete scenarios. -/
def cfgAll : Config :=
  { JWT_SECRET := some "acc", JWT_REFRESH := some "ref", JWT_SERVICE := some "svc"
    JWT_EXPIRATION := 900, JWT_REFRESH_EXPIRATION := 604800 }

def emptyS : String → String := fun _ => ""

theorem c2_witness :
    auth cfgAll dualV emptyS { authorization := some "Bearer tok", refreshTokenCookie := none } =
      .okService "billing"
        { user_id := none, service := some "billing", tokType := some "service", iat := 0 } := by
  have h := c2_service_tried_first cfgAll dualV emptyS
    { authorization := some "Bearer tok", refreshTokenCookie := none }
    { user_id := none, service := some "billing", tokType := some "service", iat := 0 }
    (by decide) (by decide) (by decide) (by decide) (by decide)
  exact h.1

/-! ## Claim C5 -/

/-- Configuration with no secrets at all. -/
def cfgNoService : Config :=
  { JWT_SECRET := none, JWT_REFRESH := none, JWT_SERVICE := none
    JWT_EXPIRATION := 900, JWT_REFRESH_EXPIRATION := 604800 }

def emptyV : String → String → Option TokenClaims := fun _ _ => none

def noHeaderReq : Request := { authorization := none, refreshTokenCookie := none }

/-- C5 counterexample: the claim demands 401 from all three variants
"regardless of configuration", but with no service secret configured
`authServiceOnly` rejects a header-less request with 500 (the
configuration guard runs before the bearer-header guard). -/
theorem c5_counterexample :
    hasBearer noHeaderReq.authorization = false ∧
    statusOf (authServiceOnly cfgNoService emptyV noHeaderReq) = some 500 ∧
    statusOf (authServiceOnly cfgNoService emptyV noHeaderReq) ≠ some 401 := by
  refine ⟨rfl, rfl, ?_⟩
  intro h
  simp [statusOf, authServiceOnly, cfgNoService, truthyS, noHeaderReq] at h

/-- C5 (amended): a request whose Authorization header is absent or not
`Bearer `-prefixed is rejected with 401 by `auth` and `authUserOnly`
under every configuration, and by `authServiceOnly` whenever the
service secret is configured (otherwise that variant rejects with 500
before looking at the header). -/
theorem c5_no_bearer_401 (cfg : Config) (V : String → String → Option TokenClaims)
    (S : String → String) (req : Request)
    (h : hasBearer req.authorization = false) :
    statusOf (auth cfg V S req) = some 401 ∧
    statusOf (authUserOnly cfg V req) = some 401 ∧
    (truthyS cfg.JWT_SERVICE = true → statusOf (authServiceOnly cfg V req) = some 401) := by
  refine ⟨?_, ?_, fun hs => ?_⟩
  · rw [auth, h]
    rfl
  · rw [authUserOnly, h]
    rfl
  · rw [authServiceOnly, if_neg (by rw [hs]; simp), h]
    rfl

theorem c5_witness :
    statusOf (auth cfgAll emptyV emptyS noHeaderReq) = some 401 ∧
    statusOf (authUserOnly cfgAll emptyV noHeaderReq) = some 401 ∧
    statusOf (authServiceOnly cfgAll emptyV noHeaderReq) = some 401 := by
  obtain ⟨h1, h2, h3⟩ := c5_no_bearer_401 cfgAll emptyV emptyS noHeaderReq (by decide)
  exact ⟨h1, h2, h3 (by decide)⟩

/-! ## Claim C3 -/

/-- Claims decoded from a valid refresh cookie. -/
def refreshClaims : TokenClaims :=
  { user_id := some "u1", service := none, tokType := some "refresh", iat := 0 }

/-- A verifier accepting only the refresh cookie `rt` under the refresh
secret `ref`. -/
def refreshV : String → String → Option TokenClaims := fun t s =>
  if t == "rt" && s == "ref" then some refreshClaims else none

/-- Refresh secret configured but no access secret. -/
def cfgNoAccess : Config :=
  { JWT_SECRET := none, JWT_REFRESH := some "ref", JWT_SERVICE := none
    JWT_EXPIRATION := 900, JWT_REFRESH_EXPIRATION := 604800 }

/-- A request with a stale bearer token and a valid refresh cookie. -/
def staleReq : Request :=
  { authorization := some "Bearer junk", refreshTokenCookie := some "rt" }

/-- C3 counterexample: every hypothesis of the claim holds — the bearer
token fails both the service and the access check, and the refresh
cookie verifies with a subject and `type == "refresh"` — yet with no
access secret configured the middleware does not proceed: issuing the
renewed token throws inside the `try` and the request is rejected
with 500. -/
theorem c3_counterexample :
    hasBearer staleReq.authorization = true ∧
    truthyS (bearerToken staleReq.authorization) = true ∧
    serviceCheck cfgNoAccess refreshV (bearerToken staleReq.authorization) = none ∧
    accessCheck cfgNoAccess refreshV (bearerToken staleReq.authorization) = none ∧
    refreshCheck cfgNoAccess refreshV staleReq.refreshTokenCookie = some refreshClaims ∧
    auth cfgNoAccess refreshV emptyS staleReq =
      .reject 500 "Failed to refresh access token" false := by
  decide

/-- C3 (amended): when the bearer token fails both the service and the
access check but the refresh cookie verifies under the refresh secret
with a subject id and `type == "refresh"`, and the access secret is
configured (so that issuing the fresh token cannot throw), the combined
middleware issues a new access token for that subject, exposes it
through `X-New-Access-Token`, marks the user principal with
`tokenRefreshed = true`, and lets the request proceed. -/
theorem c3_renewal (cfg : Config) (V : String → String → Option TokenClaims)
    (S : String → String) (req : Request) (d : TokenClaims)
    (hb : hasBearer req.authorization = true)
    (ht : truthyS (bearerToken req.authorization) = true)
    (hsvc : serviceCheck cfg V (bearerToken req.authorization) = none)
    (hacc : accessCheck cfg V (bearerToken req.authorization) = none)
    (hcookie : refreshCheck cfg V req.refreshTokenCookie = some d)
    (hsecret : truthyS cfg.JWT_SECRET = true) :
    auth cfg V S req = .okUser (d.user_id.getD "") d true (some (S (d.user_id.getD ""))) := by
  have hct := refreshCheck_cookie_truthy cfg V req.refreshTokenCookie d hcookie
  simp [auth, hb, ht, hsvc, hacc, hct, hcookie, hsecret]

def freshS : String → String := fun u => "fresh-" ++ u

theorem c3_witness :
    auth cfgAll refreshV freshS staleReq =
      .okUser "u1" refreshClaims true (some "fresh-u1") := by
  have h := c3_renewal cfgAll refreshV freshS staleReq refreshClaims
    (by decide) (by decide) (by decide) (by decide) (by decide) (by decide)
  exact h

/-! ## Claim C6 -/

/-- C6: round-trip over the symbolic JWT primitive — a token issued by
`issueAccessToken(id)` verifies under the access secret to claims with
subject `id` and `type == "access"` (while unexpired), and verifies to
null under the refresh and the service secret whenever those differ
from the access secret. -/
theorem c6_roundtrip (cfg : Config) (id : String) (now tv : Nat)
    (hsec : truthyS cfg.JWT_SECRET = true)
    (hid : (id == "") = false)
    (hfresh : tv < now + cfg.JWT_EXPIRATION)
    (hr : cfg.JWT_REFRESH ≠ cfg.JWT_SECRET)
    (hs : cfg.JWT_SERVICE ≠ cfg.JWT_SECRET) :
    ∃ t, issueAccessToken cfg id now = .ok t ∧
      verifyToken (some t) cfg.JWT_SECRET tv =
        some { user_id := some id, service := none, tokType := some "access", iat := now } ∧
      verifyToken (some t) cfg.JWT_REFRESH tv = none ∧
      verifyToken (some t) cfg.JWT_SERVICE tv = none := by
  obtain ⟨a, haeq, hane⟩ := truthyS_some _ hsec
  refine ⟨jwtSign { user_id := some id, service := none, tokType := some "access", iat := now }
    a now cfg.JWT_EXPIRATION, ?_, ?_, ?_, ?_⟩
  · rw [issueAccessToken, if_neg (by rw [hsec]; simp), if_neg (by rw [hid]; simp), haeq]
    rfl
  · rw [haeq]
    simp [verifyToken, hane, jwtVerify, jwtSign, hfresh]
  · cases hR : cfg.JWT_REFRESH with
    | none => rfl
    | some r =>
      have hra : (a == r) = false := by
        rw [beq_eq_false_iff_ne]
        intro hc
        exact hr (by rw [hR, haeq, hc])
      by_cases hre : (r == "") = true
      · simp [verifyToken, hre]
      · simp [verifyToken, hre, jwtVerify, jwtSign, hra]
  · cases hS : cfg.JWT_SERVICE with
    | none => rfl
    | some r =>
      have hra : (a == r) = false := by
        rw [beq_eq_false_iff_ne]
        intro hc
        exact hs (by rw [hS, haeq, hc])
      by_cases hre : (r == "") = true
      · simp [verifyToken, hre]
      · simp [verifyToken, hre, jwtVerify, jwtSign, hra]

theorem c6_witness :
    ∃ t, issueAccessToken cfgAll "u1" 0 = .ok t ∧
      verifyToken (some t) cfgAll.JWT_SECRET 100 =
        some { user_id := some "u1", service := none, tokType := some "access", iat := 0 } ∧
      verifyToken (some t) cfgAll.JWT_REFRESH 100 = none ∧
      verifyToken (some t) cfgAll.JWT_SERVICE 100 = none :=
  c6_roundtrip cfgAll "u1" 0 100 (by decide) (by decide) (by decide) (by decide) (by decide)

/-! ## Claim C8 -/

/-- C8: `verifyToken` is total over its error cases — it returns null
(never throwing outward, being a total function into `Option`) when the
token is missing, when the secret is missing or falsy, when the
signature check fails (wrong secret), and when the token is expired;
and, separately, `issueServiceToken` with no `JWT_SERVICE` configured
throws the configuration error rather than returning any token. -/
theorem c8_verify_total :
    (∀ sec now, verifyToken none sec now = none) ∧
    (∀ t now, verifyToken t none now = none) ∧
    (∀ (t : SignedToken) (now : Nat), verifyToken (some t) (some "") now = none) ∧
    (∀ (t : SignedToken) (s : String) (now : Nat), (t.secret == s) = false →
      verifyToken (some t) (some s) now = none) ∧
    (∀ (t : SignedToken) (s : String) (now : Nat), t.exp ≤ now →
      verifyToken (some t) (some s) now = none) ∧
    (∀ (cfg : Config) (name : String) (now : Nat), truthyS cfg.JWT_SERVICE = false →
      issueServiceToken cfg name now = .error "JWT_SERVICE secret not configured") := by
  refine ⟨?_, ?_, ?_, ?_, ?_, ?_⟩
  · intro sec now; cases sec <;> rfl
  · intro t now; cases t <;> rfl
  · intro t now; rfl
  · intro t s now h
    by_cases he : (s == "") = true
    · simp [verifyToken, he]
    · simp [verifyToken, he, jwtVerify, h]
  · intro t s now h
    have hd : decide (now < t.exp) = false := by
      rw [decide_eq_false_iff_not]
      exact Nat.not_lt.mpr h
    by_cases he : (s == "") = true
    · simp [verifyToken, he]
    · simp [verifyToken, he, jwtVerify, hd]
  · intro cfg name now h
    rw [issueServiceToken, if_pos (by rw [h]; rfl)]

/-- An access token signed with secret `acc`, expiring at time 10. -/
def expiredTok : SignedToken :=
  { payload := { user_id := some "u1", service := none, tokType := some "access", iat := 0 }
    secret := "acc", exp := 10 }

theorem c8_witness :
    verifyToken (some expiredTok) (some "other") 0 = none ∧
    verifyToken (some expiredTok) (some "acc") 10 = none ∧
    issueServiceToken cfgNoService "billing" 0 =
      .error "JWT_SERVICE secret not configured" := by
  refine ⟨?_, ?_, ?_⟩
  · exact c8_verify_total.2.2.2.1 expiredTok "other" 0 (by decide)
  · exact c8_verify_total.2.2.2.2.1 expiredTok "acc" 10 (by decide)
  · exact c8_verify_total.2.2.2.2.2 cfgNoService "billing" 0 (by decide)

/-! ## Claim C4 -/

/-- A failure value carrying a message but no `status`. -/
def noStatusFailure : JsError :=
  { message := some "boom", status := none, field := none, extra := none }

/-- A handler that rejects with `noStatusFailure` without writing
anything. -/
def throwingHandler : Handler := fun st => (.thrown noStatusFailure, st)

/-- C4 counterexample: a handler failure carrying no `status` is
answered with HTTP 500, not 400 — the wrapper forwards the failure via
`next(error)` to `errorHandler`, whose default is `err.status || 500`;
`sendError`'s 400 default parameter is never reached on this path. -/
theorem c4_counterexample :
    dispatch throwingHandler [] =
      [{ status := 500, body := .failure { message := "boom", field := none, extra := [] } }] ∧
    (500 : Nat) ≠ 400 := by
  refine ⟨rfl, by decide⟩

/-- C4 (amended): a handler failure whose object carries no `status`
field is emitted by the dispatcher's error path with HTTP status 500
(the process-wide `errorHandler` default), with the failure's message
and fields formatted by the envelope formatter. -/
theorem c4_no_status_defaults_500 (h : Handler) (st st' : List SentResponse) (e : JsError)
    (hrun : h st = (.thrown e, st'))
    (hnostatus : e.status = none)
    (hnotsent : headersSent st' = false) :
    dispatch h st = st' ++ [{ status := 500, body := .failure (sendErrorBody e) }] := by
  simp [dispatch, hrun, errorHandler, hnotsent, hnostatus, truthyN, sendErrorRes]

theorem c4_witness :
    dispatch throwingHandler [] =
      [] ++ [{ status := 500, body := .failure (sendErrorBody noStatusFailure) }] :=
  c4_no_status_defaults_500 throwingHandler [] [] noStatusFailure rfl rfl rfl

/-! ## Claim C9 -/

/-- C9: double-response guard — when the handler has itself written a
response (headers sent) and returns nothing, the wrapper skips the
automatic success send, so exactly one response is emitted for the
request. -/
theorem c9_double_response_guard (h : Handler) (st' : List SentResponse)
    (hrun : h [] = (.ret none, st'))
    (hone : st'.length = 1) :
    dispatch h [] = st' ∧ (dispatch h []).length = 1 := by
  have hs : headersSent st' = true := by
    cases st' with
    | nil => cases hone
    | cons a l => rfl
  constructor
  · simp [dispatch, hrun, hs]
  · simp [dispatch, hrun, hs, hone]

/-- A handler that writes a 204 response itself and returns nothing. -/
def manualHandler : Handler := fun st =>
  (.ret none, st ++ [{ status := 204, body := .success (.vObj .nil) }])

theorem c9_witness :
    dispatch manualHandler [] = [{ status := 204, body := .success (.vObj .nil) }] ∧
    (dispatch manualHandler []).length = 1 :=
  c9_double_response_guard manualHandler
    [{ status := 204, body := .success (.vObj .nil) }] rfl rfl

end FastNodeRest
